import Mathlib

/-!
Shallow embedding, in Lean 4, of the parts of the
HealthcareTestAutomationFramework repository that the frozen claims are
about: the security helper (src/utils/helpers.py, class SecurityHelper)
and the database test-data lifecycle helper
(src/libraries/DatabaseHealthcareLibrary.py, class
DatabaseHealthcareLibrary), together with theorems settling each claim.

Conventions used throughout:
- Python strings are Lean String / List Char.
- Python dictionaries (insertion-ordered, overwrite-in-place on existing
  keys, append on new keys) are association lists, List (String × PyVal).
- Clock readings (time.time(), datetime.utcnow()) are passed in explicitly
  as integer-second arguments, since the embedded functions are pure.
- Calls into third-party libraries (cryptography.fernet.Fernet, PyJWT) are
  modelled by executable definitions that realise the documented contract
  of those libraries; the repository wrappers around them are translated
  line by line from the source.
-/

/-- A Python value as stored in the record dictionaries the claims are
about; the repository records hold strings and numbers. -/
inductive PyVal where
  | str (s : String)
  | int (n : Int)
deriving DecidableEq, Repr

/-- Python str(value): identity on strings, decimal rendering of ints. -/
def PyVal.pyStr : PyVal → String
  | .str s => s
  | .int n => toString n

/-- A Python dictionary with string keys, as an insertion-ordered
association list. -/
abbrev Dict := List (String × PyVal)

/-- Python d[k] lookup (first matching key; association lists built only
with dictSet never hold duplicate keys). -/
def dictGet : Dict → String → Option PyVal
  | [], _ => none
  | (k0, v0) :: rest, k => if k0 = k then some v0 else dictGet rest k

/-- Python d[k] = v: overwrite in place when the key exists, append
otherwise. -/
def dictSet : Dict → String → PyVal → Dict
  | [], k, v => [(k, v)]
  | (k0, v0) :: rest, k, v =>
    if k0 = k then (k0, v) :: rest else (k0, v0) :: dictSet rest k v

theorem dictGet_dictSet_self (d : Dict) (k : String) (v : PyVal) :
    dictGet (dictSet d k v) k = some v := by
  induction d with
  | nil => simp [dictGet, dictSet]
  | cons p rest ih =>
    obtain ⟨k0, v0⟩ := p
    by_cases h : k0 = k
    · simp [dictGet, dictSet, h]
    · simp [dictGet, dictSet, h, ih]

theorem dictGet_dictSet_ne (d : Dict) (k k1 : String) (v : PyVal)
    (h : k1 ≠ k) : dictGet (dictSet d k v) k1 = dictGet d k1 := by
  have h' : ¬ k = k1 := fun hh => h hh.symm
  induction d with
  | nil => simp [dictGet, dictSet, h']
  | cons p rest ih =>
    obtain ⟨k0, v0⟩ := p
    by_cases h0 : k0 = k
    · subst h0
      simp [dictGet, dictSet, h']
    · by_cases h1 : k0 = k1
      · simp [dictGet, dictSet, h0, h1, h]
      · simp [dictGet, dictSet, h0, h1, ih]

theorem dictSet_map_fst_of_get_some (d : Dict) (k : String) (v w : PyVal)
    (h : dictGet d k = some v) :
    (dictSet d k w).map Prod.fst = d.map Prod.fst := by
  induction d with
  | nil => simp [dictGet] at h
  | cons p rest ih =>
    obtain ⟨k0, v0⟩ := p
    by_cases h0 : k0 = k
    · simp [dictSet, h0]
    · simp [dictGet, h0] at h
      simp [dictSet, h0, ih h]

/-! ## SecurityHelper.mask_pii (src/utils/helpers.py lines 336-353)

    masked_data = data.copy()
    for field in fields_to_mask:
        if field in masked_data:
            value = str(masked_data[field])
            if len(value) > 4:
                masked_data[field] = mask-all-but-last-4
            else:
                masked_data[field] = mask-everything
    return masked_data
-/

/-- The masking of one value, on character lists: length at most 4 turns
into all asterisks, otherwise all but the last four characters are
replaced by asterisks. -/
def maskChars (v : List Char) : List Char :=
  if v.length > 4 then
    List.replicate (v.length - 4) '*' ++ v.drop (v.length - 4)
  else
    List.replicate v.length '*'

/-- The masking of one value, on strings. -/
def maskValue (s : String) : String := String.mk (maskChars s.data)

/-- The default fields_to_mask list from the source. -/
def defaultPiiFields : List String :=
  ["social_security_number", "ssn", "phone_number",
   "email", "address_line1", "address_line2"]

/-- One iteration of the masking loop: mask the field if present,
otherwise leave the record alone. -/
def maskStep (d : Dict) (field : String) : Dict :=
  match dictGet d field with
  | some v => dictSet d field (.str (maskValue v.pyStr))
  | none => d

/-- SecurityHelper.mask_pii as a function on record values; the
fields_to_mask argument defaults to defaultPiiFields when None. -/
def mask_pii (data : Dict) (fields_to_mask : Option (List String)) : Dict :=
  (fields_to_mask.getD defaultPiiFields).foldl maskStep data

theorem maskChars_of_gt (v : List Char) (h : v.length > 4) :
    maskChars v = List.replicate (v.length - 4) '*' ++ v.drop (v.length - 4) := by
  unfold maskChars
  rw [if_pos h]

theorem maskChars_of_le (v : List Char) (h : ¬ v.length > 4) :
    maskChars v = List.replicate v.length '*' := by
  unfold maskChars
  rw [if_neg h]

theorem maskChars_length (v : List Char) : (maskChars v).length = v.length := by
  unfold maskChars
  split
  · simp
  · simp

theorem maskChars_idem (v : List Char) : maskChars (maskChars v) = maskChars v := by
  by_cases h : v.length > 4
  · rw [maskChars_of_gt v h]
    have hbig : (List.replicate (v.length - 4) '*' ++ v.drop (v.length - 4)).length > 4 := by
      simp
      omega
    rw [maskChars_of_gt _ hbig]
    have hlen : (List.replicate (v.length - 4) '*' ++ v.drop (v.length - 4)).length = v.length := by
      simp
    rw [hlen]
    congr 1
    exact List.drop_left' (by simp)
  · rw [maskChars_of_le v h]
    rw [maskChars_of_le _ (by simpa using h)]
    simp

theorem maskValue_idem (s : String) : maskValue (maskValue s) = maskValue s := by
  unfold maskValue
  rw [maskChars_idem]

/-- The transformation mask_pii applies to a present value. -/
def maskVal (v : PyVal) : PyVal := .str (maskValue v.pyStr)

theorem maskVal_idem (v : PyVal) : maskVal (maskVal v) = maskVal v := by
  unfold maskVal
  simp [PyVal.pyStr, maskValue_idem]

theorem maskStep_get_self (d : Dict) (f : String) :
    dictGet (maskStep d f) f = (dictGet d f).map maskVal := by
  unfold maskStep
  cases h : dictGet d f with
  | none => simp [h]
  | some v => simp [dictGet_dictSet_self, maskVal]

theorem maskStep_get_ne (d : Dict) (f k : String) (h : k ≠ f) :
    dictGet (maskStep d f) k = dictGet d k := by
  unfold maskStep
  cases hg : dictGet d f with
  | none => rfl
  | some v => exact dictGet_dictSet_ne d f k _ h

theorem maskStep_map_fst (d : Dict) (f : String) :
    (maskStep d f).map Prod.fst = d.map Prod.fst := by
  unfold maskStep
  cases h : dictGet d f with
  | none => rfl
  | some v => exact dictSet_map_fst_of_get_some d f v _ h

theorem maskFold_get_frame (fields : List String) (d : Dict) (k : String)
    (h : k ∉ fields ∨ dictGet d k = none) :
    dictGet (fields.foldl maskStep d) k = dictGet d k := by
  induction fields generalizing d with
  | nil => rfl
  | cons f fs ih =>
    rcases h with h | h
    · have hne : k ≠ f := fun hh => h (hh ▸ List.mem_cons_self f fs)
      rw [List.foldl_cons, ih (maskStep d f) (Or.inl (fun hh => h (List.mem_cons_of_mem f hh))),
        maskStep_get_ne d f k hne]
    · have hstep : dictGet (maskStep d f) k = none := by
        by_cases hk : k = f
        · subst hk
          rw [maskStep_get_self, h]
          rfl
        · rw [maskStep_get_ne d f k hk, h]
      rw [List.foldl_cons, ih (maskStep d f) (Or.inr hstep), hstep, h]

theorem maskFold_get_masked (fields : List String) (d : Dict) (k : String)
    (h : k ∈ fields) :
    dictGet (fields.foldl maskStep d) k = (dictGet d k).map maskVal := by
  induction fields generalizing d with
  | nil => cases h
  | cons f fs ih =>
    rw [List.foldl_cons]
    by_cases hmem : k ∈ fs
    · rw [ih (maskStep d f) hmem]
      by_cases hk : k = f
      · subst hk
        rw [maskStep_get_self]
        cases dictGet d k with
        | none => rfl
        | some v => simp [maskVal_idem]
      · rw [maskStep_get_ne d f k hk]
    · have hk : k = f := by
        rcases List.mem_cons.mp h with h1 | h1
        · exact h1
        · exact absurd h1 hmem
      subst hk
      rw [maskFold_get_frame fs (maskStep d k) k (Or.inl hmem), maskStep_get_self]

theorem maskFold_map_fst (fields : List String) (d : Dict) :
    (fields.foldl maskStep d).map Prod.fst = d.map Prod.fst := by
  induction fields generalizing d with
  | nil => rfl
  | cons f fs ih => rw [List.foldl_cons, ih, maskStep_map_fst]

/-! ### A small heap of dictionary objects

mask_pii starts from masked_data = data.copy() and then mutates only the
copy; to state that the callers dictionary object is left untouched we
model dictionaries as heap cells addressed by index. -/

def listSetD : List Dict → Nat → Dict → List Dict
  | [], _, _ => []
  | _ :: rest, 0, d => d :: rest
  | c :: rest, n + 1, d => c :: listSetD rest n d

def listGetD : List Dict → Nat → Dict
  | [], _ => []
  | c :: _, 0 => c
  | _ :: rest, n + 1 => listGetD rest n

structure PyHeap where
  cells : List Dict

def PyHeap.get (h : PyHeap) (r : Nat) : Dict := listGetD h.cells r

def PyHeap.set (h : PyHeap) (r : Nat) (d : Dict) : PyHeap := ⟨listSetD h.cells r d⟩

def PyHeap.alloc (h : PyHeap) (d : Dict) : PyHeap × Nat :=
  (⟨h.cells ++ [d]⟩, h.cells.length)

theorem listSetD_length (cells : List Dict) (r : Nat) (d : Dict) :
    (listSetD cells r d).length = cells.length := by
  induction cells generalizing r with
  | nil => rfl
  | cons c rest ih =>
    cases r with
    | zero => rfl
    | succ n => simp [listSetD, ih]

theorem listGetD_listSetD_self (cells : List Dict) (r : Nat) (d : Dict)
    (h : r < cells.length) : listGetD (listSetD cells r d) r = d := by
  induction cells generalizing r with
  | nil => simp at h
  | cons c rest ih =>
    cases r with
    | zero => rfl
    | succ n => exact ih n (Nat.lt_of_succ_lt_succ h)

theorem listGetD_listSetD_ne (cells : List Dict) (r a : Nat) (d : Dict)
    (h : a ≠ r) : listGetD (listSetD cells r d) a = listGetD cells a := by
  induction cells generalizing r a with
  | nil => rfl
  | cons c rest ih =>
    cases r with
    | zero =>
      cases a with
      | zero => exact absurd rfl h
      | succ m => rfl
    | succ n =>
      cases a with
      | zero => rfl
      | succ m => exact ih n m (fun hh => h (by rw [hh]))

theorem listGetD_append_lt (cells extra : List Dict) (a : Nat)
    (h : a < cells.length) : listGetD (cells ++ extra) a = listGetD cells a := by
  induction cells generalizing a with
  | nil => simp at h
  | cons c rest ih =>
    cases a with
    | zero => rfl
    | succ m => exact ih m (Nat.lt_of_succ_lt_succ h)

theorem listGetD_append_self (cells : List Dict) (d : Dict) :
    listGetD (cells ++ [d]) cells.length = d := by
  induction cells with
  | nil => rfl
  | cons c rest ih => exact ih

/-- SecurityHelper.mask_pii at the level of dictionary objects: the
data.copy() allocation and the in-place loop writes made explicit.  Every
iteration of the loop writes only to the freshly allocated copy. -/
def mask_pii_prog (h : PyHeap) (dataRef : Nat)
    (fields_to_mask : Option (List String)) : PyHeap × Nat :=
  let fields := fields_to_mask.getD defaultPiiFields
  let alloc1 := PyHeap.alloc h (h.get dataRef)
  let r := alloc1.2
  let h2 := fields.foldl (fun hh f => hh.set r (maskStep (hh.get r) f)) alloc1.1
  (h2, r)

theorem heapLoop_get_ne (fields : List String) (hh : PyHeap) (r a : Nat)
    (h : a ≠ r) :
    (fields.foldl (fun hh f => hh.set r (maskStep (hh.get r) f)) hh).get a = hh.get a := by
  induction fields generalizing hh with
  | nil => rfl
  | cons f fs ih =>
    rw [List.foldl_cons, ih]
    exact listGetD_listSetD_ne hh.cells r a _ h

theorem heapLoop_get_self (fields : List String) (hh : PyHeap) (r : Nat)
    (h : r < hh.cells.length) :
    (fields.foldl (fun hh f => hh.set r (maskStep (hh.get r) f)) hh).get r =
      fields.foldl maskStep (hh.get r) := by
  induction fields generalizing hh with
  | nil => rfl
  | cons f fs ih =>
    rw [List.foldl_cons, List.foldl_cons]
    have hlen : (hh.set r (maskStep (hh.get r) f)).cells.length = hh.cells.length :=
      listSetD_length hh.cells r _
    rw [ih (hh.set r (maskStep (hh.get r) f)) (hlen ▸ h)]
    have hget : (hh.set r (maskStep (hh.get r) f)).get r = maskStep (hh.get r) f :=
      listGetD_listSetD_self hh.cells r _ h
    rw [hget]

/-- Claim C5: for every record and every field in the mask list that is
present in the record, mask_pii replaces a string value of length at most
4 with a same-length string of asterisks, and a longer value with
asterisks followed by exactly its last 4 characters, keeping the total
length unchanged. -/
theorem C5_mask_pii_field_masking (data : Dict) (fields_to_mask : Option (List String))
    (field : String) (v : PyVal)
    (hf : field ∈ fields_to_mask.getD defaultPiiFields)
    (hv : dictGet data field = some v) :
    (¬ v.pyStr.data.length > 4 →
      dictGet (mask_pii data fields_to_mask) field =
        some (.str (String.mk (List.replicate v.pyStr.data.length '*'))))
    ∧ (v.pyStr.data.length > 4 →
      dictGet (mask_pii data fields_to_mask) field =
        some (.str (String.mk (List.replicate (v.pyStr.data.length - 4) '*' ++
          v.pyStr.data.drop (v.pyStr.data.length - 4)))))
    ∧ (∃ m : String,
        dictGet (mask_pii data fields_to_mask) field = some (.str m)
        ∧ m.data.length = v.pyStr.data.length
        ∧ (v.pyStr.data.length > 4 →
            m.data.drop (v.pyStr.data.length - 4) =
              v.pyStr.data.drop (v.pyStr.data.length - 4))) := by
  have hmain : dictGet (mask_pii data fields_to_mask) field = some (maskVal v) := by
    unfold mask_pii
    rw [maskFold_get_masked _ data field hf, hv]
    rfl
  refine ⟨?_, ?_, ?_⟩
  · intro hle
    rw [hmain]
    unfold maskVal maskValue
    rw [maskChars_of_le _ hle]
  · intro hgt
    rw [hmain]
    unfold maskVal maskValue
    rw [maskChars_of_gt _ hgt]
  · refine ⟨maskValue v.pyStr, by rw [hmain]; rfl, ?_, ?_⟩
    · unfold maskValue
      exact maskChars_length _
    · intro hgt
      unfold maskValue
      show (maskChars v.pyStr.data).drop _ = _
      rw [maskChars_of_gt _ hgt]
      exact List.drop_left' (by simp)

/-- Witness for C5 at a concrete record: the default mask list covers
the key ssn, whose nine-character value is masked down to its last four
characters. -/
theorem C5_mask_pii_field_masking_witness :
    ("ssn" ∈ (none : Option (List String)).getD defaultPiiFields
      ∧ dictGet [("ssn", PyVal.str "123456789")] "ssn" = some (PyVal.str "123456789"))
    ∧ ((PyVal.str "123456789").pyStr.data.length > 4 →
      dictGet (mask_pii [("ssn", PyVal.str "123456789")] none) "ssn" =
        some (.str (String.mk (List.replicate ((PyVal.str "123456789").pyStr.data.length - 4) '*' ++
          (PyVal.str "123456789").pyStr.data.drop ((PyVal.str "123456789").pyStr.data.length - 4))))) :=
  ⟨⟨by decide, by decide⟩,
    (C5_mask_pii_field_masking [("ssn", PyVal.str "123456789")] none "ssn"
      (PyVal.str "123456789") (by decide) (by decide)).2.1⟩

/-- Claim C9: mask_pii allocates and returns a fresh dictionary, leaves
the callers input dictionary object completely unchanged, and every field
outside the mask list (or absent from the record) keeps exactly its
original value; the key set of the output equals that of the input. -/
theorem C9_mask_pii_pure_frame (h : PyHeap) (dataRef : Nat)
    (fields_to_mask : Option (List String)) (hlt : dataRef < h.cells.length) :
    (mask_pii_prog h dataRef fields_to_mask).2 ≠ dataRef
    ∧ ((mask_pii_prog h dataRef fields_to_mask).1).get dataRef = h.get dataRef
    ∧ ((mask_pii_prog h dataRef fields_to_mask).1).get
        (mask_pii_prog h dataRef fields_to_mask).2 =
        mask_pii (h.get dataRef) fields_to_mask
    ∧ (∀ k, k ∉ fields_to_mask.getD defaultPiiFields ∨ dictGet (h.get dataRef) k = none →
        dictGet (((mask_pii_prog h dataRef fields_to_mask).1).get
          (mask_pii_prog h dataRef fields_to_mask).2) k = dictGet (h.get dataRef) k)
    ∧ (((mask_pii_prog h dataRef fields_to_mask).1).get
        (mask_pii_prog h dataRef fields_to_mask).2).map Prod.fst =
        (h.get dataRef).map Prod.fst := by
  have hr : (mask_pii_prog h dataRef fields_to_mask).2 = h.cells.length := rfl
  have hne : (mask_pii_prog h dataRef fields_to_mask).2 ≠ dataRef := by
    rw [hr]
    omega
  have halloc2 : (h.alloc (h.get dataRef)).2 = h.cells.length := rfl
  have hcopy : ((mask_pii_prog h dataRef fields_to_mask).1).get
      (mask_pii_prog h dataRef fields_to_mask).2 =
      mask_pii (h.get dataRef) fields_to_mask := by
    show PyHeap.get ((fields_to_mask.getD defaultPiiFields).foldl _ _) h.cells.length = _
    simp only [halloc2]
    rw [heapLoop_get_self _ _ _ (by simp [PyHeap.alloc])]
    unfold mask_pii
    congr 1
    exact listGetD_append_self h.cells _
  refine ⟨hne, ?_, hcopy, ?_, ?_⟩
  · show PyHeap.get ((fields_to_mask.getD defaultPiiFields).foldl _ _) dataRef = _
    simp only [halloc2]
    rw [heapLoop_get_ne _ _ _ _ (by omega)]
    exact listGetD_append_lt h.cells _ dataRef hlt
  · intro k hk
    rw [hcopy]
    exact maskFold_get_frame _ _ k hk
  · rw [hcopy]
    exact maskFold_map_fst _ _

/-- Witness for C9 at a concrete one-cell heap. -/
theorem C9_mask_pii_pure_frame_witness :
    (0 < (PyHeap.mk [[("ssn", PyVal.str "123456789")]]).cells.length)
    ∧ ((mask_pii_prog (PyHeap.mk [[("ssn", PyVal.str "123456789")]]) 0 none).1).get 0 =
        (PyHeap.mk [[("ssn", PyVal.str "123456789")]]).get 0 :=
  ⟨by decide,
    (C9_mask_pii_pure_frame (PyHeap.mk [[("ssn", PyVal.str "123456789")]]) 0 none
      (by decide)).2.1⟩

/-! ## SecurityHelper.verify_otp (src/utils/helpers.py lines 319-326)

    def verify_otp(self, otp, expected_otp, timestamp=None):
        if timestamp:
            if time.time() - timestamp > 300:
                return False
        return otp == expected_otp

A Python float is truthy exactly when it is non-zero, so timestamp=0
skips the expiry check just like timestamp=None.  Clock readings are
embedded as integer seconds and time.time() is the explicit argument
now. -/

/-- Python truthiness of the optional timestamp argument. -/
def timestampTruthy : Option Int → Bool
  | none => false
  | some t => decide (t ≠ 0)

/-- SecurityHelper.verify_otp. -/
def verify_otp (otp expected_otp : String) (timestamp : Option Int) (now : Int) : Bool :=
  if timestampTruthy timestamp then
    if now - timestamp.getD 0 > 300 then false
    else otp == expected_otp
  else otp == expected_otp

/-- Counterexample to claim C6 as stated: with timestamp 0 the elapsed
time 1000 exceeds the 300 second window, yet verify_otp returns true,
because a zero timestamp is falsy and the whole expiry check is
skipped. -/
theorem C6_counterexample_zero_timestamp :
    (1000 : Int) - 0 > 300 ∧ verify_otp "123456" "123456" (some 0) 1000 = true := by
  exact ⟨by decide, by decide⟩

/-- Claim C6, amended: verify_otp(otp, otp) with no timestamp returns
true; with a truthy (that is, non-zero) timestamp it returns false
whenever the elapsed time exceeds the 300 second window; and with a
truthy timestamp within the window, or with no timestamp, the result
equals plain string equality. -/
theorem C6_verify_otp_amended (otp expected_otp : String) (t now : Int) :
    (verify_otp otp otp none now = true)
    ∧ (t ≠ 0 → now - t > 300 → verify_otp otp otp (some t) now = false)
    ∧ (t ≠ 0 → ¬ now - t > 300 →
        verify_otp otp expected_otp (some t) now = (otp == expected_otp))
    ∧ (verify_otp otp expected_otp none now = (otp == expected_otp)) := by
  refine ⟨by simp [verify_otp, timestampTruthy], ?_, ?_, by simp [verify_otp, timestampTruthy]⟩
  · intro ht hgt
    simp [verify_otp, timestampTruthy, ht, hgt]
  · intro ht hle
    simp [verify_otp, timestampTruthy, ht, hle]

/-- Witness for the amended C6: a non-zero timestamp 999 seconds before
now is rejected even when the codes match. -/
theorem C6_verify_otp_amended_witness :
    ((1 : Int) ≠ 0 ∧ (1000 : Int) - 1 > 300)
    ∧ verify_otp "123456" "123456" (some 1) 1000 = false :=
  ⟨⟨by decide, by decide⟩,
    (C6_verify_otp_amended "123456" "123456" 1 1000).2.1 (by decide) (by decide)⟩

/-- Claim C10: a timestamp argument equal to 0 is falsy, so verify_otp
skips the expiry check entirely and returns plain string equality, for
every current time, however far past the 300 second window. -/
theorem C10_verify_otp_zero_timestamp_skips_expiry (otp expected_otp : String) (now : Int) :
    verify_otp otp expected_otp (some 0) now = (otp == expected_otp) := by
  simp [verify_otp, timestampTruthy]

/-! ## SecurityHelper.generate_secure_password (src/utils/helpers.py lines 205-233)

Randomness enters through secrets.choice and secrets.SystemRandom().shuffle.
The embedding passes the randomness explicitly: rand n is the index drawn
by the n-th secrets.choice call (the choice picks position rand n modulo
the set size), and sh is the final shuffle, an arbitrary permutation. -/

def lowercaseChars : List Char := "abcdefghijklmnopqrstuvwxyz".data

def uppercaseChars : List Char := "ABCDEFGHIJKLMNOPQRSTUVWXYZ".data

def digitChars : List Char := "0123456789".data

def specialChars : List Char := "!@#$%^&*".data

/-- secrets.choice from a finite character set, with the draw explicit. -/
def secretsChoice (s : List Char) (r : Nat) : Char := s.getD (r % s.length) 'a'

/-- SecurityHelper.generate_secure_password. -/
def generate_secure_password (length : Nat) (rand : Nat → Nat)
    (sh : List Char → List Char) : String :=
  let len := if length < 8 then 8 else length
  let password := [secretsChoice lowercaseChars (rand 0),
                   secretsChoice uppercaseChars (rand 1),
                   secretsChoice digitChars (rand 2),
                   secretsChoice specialChars (rand 3)]
  let all_chars := lowercaseChars ++ uppercaseChars ++ digitChars ++ specialChars
  let filled := password ++
    (List.range (len - 4)).map (fun i => secretsChoice all_chars (rand (4 + i)))
  String.mk (sh filled)

theorem secretsChoice_mem (s : List Char) (r : Nat) (h : s ≠ []) :
    secretsChoice s r ∈ s := by
  unfold secretsChoice
  have hlt : r % s.length < s.length := Nat.mod_lt _ (List.length_pos.mpr h)
  rw [List.getD_eq_getElem s 'a' hlt]
  exact List.getElem_mem hlt

/-- Claim C3: the generated password contains at least one character from
each of the four classes, and its length is the requested length clamped
below at 8; valid for every random stream and every shuffle that permutes
its input. -/
theorem C3_generate_secure_password_complexity (length : Nat) (rand : Nat → Nat)
    (sh : List Char → List Char) (hsh : ∀ l : List Char, (sh l).Perm l) :
    (8 ≤ length → (generate_secure_password length rand sh).data.length = length)
    ∧ (length < 8 → (generate_secure_password length rand sh).data.length = 8)
    ∧ (∃ c ∈ (generate_secure_password length rand sh).data, c ∈ lowercaseChars)
    ∧ (∃ c ∈ (generate_secure_password length rand sh).data, c ∈ uppercaseChars)
    ∧ (∃ c ∈ (generate_secure_password length rand sh).data, c ∈ digitChars)
    ∧ (∃ c ∈ (generate_secure_password length rand sh).data, c ∈ specialChars) := by
  set len := if length < 8 then 8 else length with hlen
  set filled := [secretsChoice lowercaseChars (rand 0),
                 secretsChoice uppercaseChars (rand 1),
                 secretsChoice digitChars (rand 2),
                 secretsChoice specialChars (rand 3)] ++
    (List.range (len - 4)).map (fun i =>
      secretsChoice (lowercaseChars ++ uppercaseChars ++ digitChars ++ specialChars)
        (rand (4 + i))) with hfilled
  have hdata : (generate_secure_password length rand sh).data = sh filled := rfl
  have hperm : (sh filled).Perm filled := hsh filled
  have hfl : filled.length = len := by
    rw [hfilled]
    simp only [List.length_append, List.length_cons, List.length_map, List.length_range,
      List.length_nil]
    have h8 : 8 ≤ len := by
      rw [hlen]
      split
      · exact Nat.le_refl 8
      · omega
    omega
  have hl : (generate_secure_password length rand sh).data.length = len := by
    rw [hdata, hperm.length_eq, hfl]
  refine ⟨?_, ?_, ?_, ?_, ?_, ?_⟩
  · intro h
    rw [hl, hlen, if_neg (by omega)]
  · intro h
    rw [hl, hlen, if_pos h]
  · refine ⟨secretsChoice lowercaseChars (rand 0), ?_, secretsChoice_mem _ _ (by decide)⟩
    rw [hdata, hperm.mem_iff, hfilled]
    simp
  · refine ⟨secretsChoice uppercaseChars (rand 1), ?_, secretsChoice_mem _ _ (by decide)⟩
    rw [hdata, hperm.mem_iff, hfilled]
    simp
  · refine ⟨secretsChoice digitChars (rand 2), ?_, secretsChoice_mem _ _ (by decide)⟩
    rw [hdata, hperm.mem_iff, hfilled]
    simp
  · refine ⟨secretsChoice specialChars (rand 3), ?_, secretsChoice_mem _ _ (by decide)⟩
    rw [hdata, hperm.mem_iff, hfilled]
    simp

/-- Witness for C3: the identity shuffle is a permutation, and at a
requested length of 3 the password comes out with the clamped length 8. -/
theorem C3_generate_secure_password_complexity_witness :
    ((∀ l : List Char, (id l).Perm l) ∧ 3 < 8)
    ∧ (generate_secure_password 3 (fun _ => 0) id).data.length = 8 :=
  ⟨⟨fun l => List.Perm.refl l, by decide⟩,
    (C3_generate_secure_password_complexity 3 (fun _ => 0) id
      (fun l => List.Perm.refl l)).2.1 (by decide)⟩

/-! ## Fernet encryption wrappers (src/utils/helpers.py lines 195-203, 272-290, 328-334)

encrypt_data / decrypt_data build a Fernet cipher from the supplied key,
or fall back to the per-instance cipher created in the constructor;
encrypt_sensitive_data / decrypt_sensitive_data always use the instance
cipher.  The Fernet cipher itself is third-party
(cryptography.fernet.Fernet); it is modelled by its documented contract:
an authenticated symmetric token scheme where decryption under the
encrypting key returns the plaintext and decryption under any other key
raises InvalidToken because the HMAC check fails.  The keyTag field
stands for that HMAC binding, the payload field for the encrypted
plaintext. -/

structure FernetToken where
  keyTag : String
  payload : String
deriving DecidableEq, Repr

/-- Model of Fernet(key).encrypt. -/
def fernetEncrypt (key : String) (data : String) : FernetToken := ⟨key, data⟩

/-- Model of Fernet(key).decrypt: the HMAC bound to the key is checked
and InvalidToken raised on mismatch. -/
def fernetDecrypt (key : String) (tok : FernetToken) : Except String String :=
  if tok.keyTag = key then .ok tok.payload else .error "InvalidToken"

/-- A SecurityHelper instance; the constructor stores one Fernet cipher
for the session, determined by its key. -/
structure SecurityHelper where
  cipherKey : String

/-- SecurityHelper.encrypt_data: uses the supplied key if given, else the
instance cipher. -/
def SecurityHelper.encrypt_data (h : SecurityHelper) (data : String)
    (key : Option String) : FernetToken :=
  match key with
  | some k => fernetEncrypt k data
  | none => fernetEncrypt h.cipherKey data

/-- SecurityHelper.decrypt_data: uses the supplied key if given, else the
instance cipher. -/
def SecurityHelper.decrypt_data (h : SecurityHelper) (encrypted_data : FernetToken)
    (key : Option String) : Except String String :=
  match key with
  | some k => fernetDecrypt k encrypted_data
  | none => fernetDecrypt h.cipherKey encrypted_data

/-- SecurityHelper.encrypt_sensitive_data: always the instance cipher. -/
def SecurityHelper.encrypt_sensitive_data (h : SecurityHelper) (data : String) :
    FernetToken :=
  fernetEncrypt h.cipherKey data

/-- SecurityHelper.decrypt_sensitive_data: always the instance cipher. -/
def SecurityHelper.decrypt_sensitive_data (h : SecurityHelper)
    (encrypted_data : FernetToken) : Except String String :=
  fernetDecrypt h.cipherKey encrypted_data

/-- Claim C1: decrypt_data inverts encrypt_data under the same key (both
for a supplied key and for the instance key), decrypt_sensitive_data
inverts encrypt_sensitive_data, and decrypting under a different key
fails with InvalidToken rather than returning a value. -/
theorem C1_fernet_roundtrip (h : SecurityHelper) (x k k1 : String) :
    (h.decrypt_data (h.encrypt_data x (some k)) (some k) = .ok x)
    ∧ (h.decrypt_data (h.encrypt_data x none) none = .ok x)
    ∧ (h.decrypt_sensitive_data (h.encrypt_sensitive_data x) = .ok x)
    ∧ (k1 ≠ k →
        h.decrypt_data (h.encrypt_data x (some k)) (some k1) = .error "InvalidToken") := by
  refine ⟨?_, ?_, ?_, ?_⟩
  · simp [SecurityHelper.encrypt_data, SecurityHelper.decrypt_data, fernetEncrypt, fernetDecrypt]
  · simp [SecurityHelper.encrypt_data, SecurityHelper.decrypt_data, fernetEncrypt, fernetDecrypt]
  · simp [SecurityHelper.encrypt_sensitive_data, SecurityHelper.decrypt_sensitive_data,
      fernetEncrypt, fernetDecrypt]
  intro hne
  have hne' : ¬ k = k1 := fun hh => hne hh.symm
  simp [SecurityHelper.encrypt_data, SecurityHelper.decrypt_data, fernetEncrypt,
    fernetDecrypt, hne']

/-- Witness for C1 at concrete keys: decryption under key K2 of a token
encrypted under key K1 fails. -/
theorem C1_fernet_roundtrip_witness :
    (("K2" : String) ≠ "K1")
    ∧ (SecurityHelper.mk "A").decrypt_data
        ((SecurityHelper.mk "A").encrypt_data "patient-record" (some "K1"))
        (some "K2") = .error "InvalidToken" :=
  ⟨by decide, (C1_fernet_roundtrip (SecurityHelper.mk "A") "patient-record" "K1" "K2").2.2.2
    (by decide)⟩

/-! ## JWT wrappers (src/utils/helpers.py lines 255-270)

generate_jwt_token writes payload[exp] = utcnow + 1 hour and
payload[iat] = utcnow into the payload dictionary and encodes it with
the secret under HS256; verify_jwt_token decodes, checking signature
and expiry.  PyJWT is third-party; it is modelled by its documented
contract: the token carries the claim set, the sig field stands for the
HS256 signature binding to the secret, decoding under a different secret
raises InvalidSignatureError, and decoding once the exp claim lies in
the past raises ExpiredSignatureError.  Datetimes are embedded as
integer epoch seconds, which is how PyJWT serialises exp and iat. -/

structure JwtToken where
  claims : Dict
  sig : String
deriving DecidableEq, Repr

/-- SecurityHelper.generate_jwt_token; now is datetime.datetime.utcnow()
in epoch seconds.  The source overwrites any exp and iat entries of the
payload before encoding. -/
def generate_jwt_token (payload : Dict) (secret : String) (now : Int) : JwtToken :=
  let p1 := dictSet payload "exp" (.int (now + 3600))
  let p2 := dictSet p1 "iat" (.int now)
  ⟨p2, secret⟩

/-- SecurityHelper.verify_jwt_token (jwt.decode under HS256); now is the
clock reading at verification time. -/
def verify_jwt_token (token : JwtToken) (secret : String) (now : Int) :
    Except String Dict :=
  if token.sig ≠ secret then .error "InvalidSignatureError"
  else
    match dictGet token.claims "exp" with
    | some (.int e) => if e < now then .error "ExpiredSignatureError" else .ok token.claims
    | _ => .ok token.claims

/-- Counterexample to claim C4 as stated: a payload that already carries
an exp field does not get it back.  generate_jwt_token overwrites exp
with now + 3600 (and adds iat), so verification with the correct secret
before expiry succeeds but returns a dictionary whose exp value differs
from the original payload value 0. -/
theorem C4_counterexample_exp_overwritten :
    verify_jwt_token (generate_jwt_token [("exp", PyVal.int 0)] "s" 1000) "s" 1000 =
      .ok [("exp", PyVal.int 4600), ("iat", PyVal.int 1000)]
    ∧ dictGet [("exp", PyVal.int 0)] "exp" = some (PyVal.int 0)
    ∧ dictGet [("exp", PyVal.int 4600), ("iat", PyVal.int 1000)] "exp" ≠
        some (PyVal.int 0) := by
  refine ⟨?_, by decide, by decide⟩
  simp [generate_jwt_token, verify_jwt_token, dictSet, dictGet]

/-- Claim C4, amended: verification with the same secret before expiry
succeeds and recovers every original payload field other than exp and
iat with its original value; verification with a different secret fails
with InvalidSignatureError; and verification fails with
ExpiredSignatureError once the expiry written at generation time has
passed. -/
theorem C4_jwt_roundtrip_amended (payload : Dict) (secret other : String)
    (now now1 : Int) :
    (now1 ≤ now + 3600 →
      ∃ claims, verify_jwt_token (generate_jwt_token payload secret now) secret now1 =
          .ok claims
        ∧ ∀ k, k ≠ "exp" → k ≠ "iat" → dictGet claims k = dictGet payload k)
    ∧ (other ≠ secret →
        verify_jwt_token (generate_jwt_token payload secret now) other now1 =
          .error "InvalidSignatureError")
    ∧ (now + 3600 < now1 →
        verify_jwt_token (generate_jwt_token payload secret now) secret now1 =
          .error "ExpiredSignatureError") := by
  have hsig : (generate_jwt_token payload secret now).sig = secret := rfl
  have hexp : dictGet (generate_jwt_token payload secret now).claims "exp" =
      some (.int (now + 3600)) := by
    show dictGet (dictSet (dictSet payload "exp" _) "iat" _) "exp" = _
    rw [dictGet_dictSet_ne _ _ _ _ (by decide), dictGet_dictSet_self]
  have hver : verify_jwt_token (generate_jwt_token payload secret now) secret now1 =
      if now + 3600 < now1 then .error "ExpiredSignatureError"
      else .ok (generate_jwt_token payload secret now).claims := by
    unfold verify_jwt_token
    rw [if_neg (by simp [hsig]), hexp]
  refine ⟨?_, ?_, ?_⟩
  · intro hle
    refine ⟨(generate_jwt_token payload secret now).claims, ?_, ?_⟩
    · rw [hver, if_neg (by omega)]
    · intro k hk1 hk2
      show dictGet (dictSet (dictSet payload "exp" _) "iat" _) k = _
      rw [dictGet_dictSet_ne _ _ _ _ hk2, dictGet_dictSet_ne _ _ _ _ hk1]
  · intro hne
    have hcond : (generate_jwt_token payload secret now).sig ≠ other := by
      rw [hsig]
      exact fun hh => hne hh.symm
    unfold verify_jwt_token
    rw [if_pos hcond]
  · intro hgt
    rw [hver, if_pos (by omega)]

/-- Witness for the amended C4 at a concrete payload: the user field
survives the round trip, a wrong secret is rejected, and a verification
3700 seconds later is rejected as expired. -/
theorem C4_jwt_roundtrip_amended_witness :
    ((10 : Int) ≤ 0 + 3600 ∧ ("wrong" : String) ≠ "s" ∧ (0 : Int) + 3600 < 3700)
    ∧ (∃ claims,
        verify_jwt_token (generate_jwt_token [("user", PyVal.str "alice")] "s" 0) "s" 10 =
          .ok claims
        ∧ ∀ k, k ≠ "exp" → k ≠ "iat" →
            dictGet claims k = dictGet [("user", PyVal.str "alice")] k)
    ∧ verify_jwt_token (generate_jwt_token [("user", PyVal.str "alice")] "s" 0) "wrong" 10 =
        .error "InvalidSignatureError"
    ∧ verify_jwt_token (generate_jwt_token [("user", PyVal.str "alice")] "s" 0) "s" 3700 =
        .error "ExpiredSignatureError" :=
  ⟨⟨by decide, by decide, by decide⟩,
    (C4_jwt_roundtrip_amended [("user", PyVal.str "alice")] "s" "wrong" 0 10).1 (by decide),
    (C4_jwt_roundtrip_amended [("user", PyVal.str "alice")] "s" "wrong" 0 10).2.1 (by decide),
    (C4_jwt_roundtrip_amended [("user", PyVal.str "alice")] "s" "wrong" 0 3700).2.2 (by decide)⟩

/-! ## DatabaseHealthcareLibrary.cleanup_test_data
(src/libraries/DatabaseHealthcareLibrary.py lines 370-414 and 505-520)

Each table is embedded as the list of patient_id values of its rows,
the only column the cleanup logic touches.  The helper
_delete_from_table issues DELETE FROM table WHERE patient_id IN ids,
keeping exactly the rows whose patient_id is not among ids.
cleanup_test_data walks the fixed cleanup order, the five child tables
first and patients last, and returns immediately on an empty id list. -/

inductive HcTable where
  | prescriptions
  | medical_records
  | appointments
  | patient_allergies
  | patient_medications
  | patients
deriving DecidableEq, Repr

structure HealthcareDb where
  prescriptions : List String
  medical_records : List String
  appointments : List String
  patient_allergies : List String
  patient_medications : List String
  patients : List String
deriving DecidableEq, Repr

def getTable (db : HealthcareDb) : HcTable → List String
  | .prescriptions => db.prescriptions
  | .medical_records => db.medical_records
  | .appointments => db.appointments
  | .patient_allergies => db.patient_allergies
  | .patient_medications => db.patient_medications
  | .patients => db.patients

def setTable (db : HealthcareDb) : HcTable → List String → HealthcareDb
  | .prescriptions, rows => { db with prescriptions := rows }
  | .medical_records, rows => { db with medical_records := rows }
  | .appointments, rows => { db with appointments := rows }
  | .patient_allergies, rows => { db with patient_allergies := rows }
  | .patient_medications, rows => { db with patient_medications := rows }
  | .patients, rows => { db with patients := rows }

/-- The effect of DELETE FROM t WHERE patient_id IN (ids) on the rows of
one table. -/
def deleteRows (rows ids : List String) : List String :=
  rows.filter (fun pid => decide (pid ∉ ids))

/-- DatabaseHealthcareLibrary._delete_from_table. -/
def delete_from_table (db : HealthcareDb) (table : HcTable) (ids : List String) :
    HealthcareDb :=
  setTable db table (deleteRows (getTable db table) ids)

/-- The fixed cleanup order from the source, child tables before the
parent patients table. -/
def cleanup_tables : List HcTable :=
  [.prescriptions, .medical_records, .appointments,
   .patient_allergies, .patient_medications, .patients]

/-- DatabaseHealthcareLibrary.cleanup_test_data. -/
def cleanup_test_data (db : HealthcareDb) (patient_ids : List String) : HealthcareDb :=
  if patient_ids.isEmpty then db
  else cleanup_tables.foldl (fun d t => delete_from_table d t patient_ids) db

/-- The database states reached during the cleanup loop: the initial
state and the state after each per-table deletion, in order. -/
def cleanup_states (db : HealthcareDb) (patient_ids : List String) : List HealthcareDb :=
  cleanup_tables.scanl (fun d t => delete_from_table d t patient_ids) db

theorem deleteRows_not_mem (rows ids : List String) (pid : String) (h : pid ∈ ids) :
    pid ∉ deleteRows rows ids := by
  unfold deleteRows
  intro hmem
  have hf := (List.mem_filter.mp hmem).2
  simp at hf
  exact hf h

theorem mem_ids_of_removed (rows ids : List String) (pid : String)
    (h1 : pid ∈ rows) (h2 : pid ∉ deleteRows rows ids) : pid ∈ ids := by
  by_contra hn
  exact h2 (List.mem_filter.mpr ⟨h1, by simpa using hn⟩)

/-- Claim C2: for a non-empty list of patient identifiers,
cleanup_test_data removes every matching row from every table, and at no
intermediate state of the loop does a child-table row exist whose
patient row has already been deleted: the patients table is only touched
in the last step, after all five child tables have been purged. -/
theorem C2_cleanup_test_data_integrity (db : HealthcareDb) (ids : List String)
    (h : ids ≠ []) :
    (∀ t : HcTable, ∀ pid ∈ ids, pid ∉ getTable (cleanup_test_data db ids) t)
    ∧ (∀ s ∈ cleanup_states db ids, ∀ p, p ∈ db.patients → p ∉ s.patients →
        ∀ t : HcTable, t ≠ .patients → p ∉ getTable s t) := by
  have hne : ids.isEmpty = false := by
    cases ids with
    | nil => exact absurd rfl h
    | cons a as => rfl
  have hfinal : cleanup_test_data db ids =
      ⟨deleteRows db.prescriptions ids, deleteRows db.medical_records ids,
       deleteRows db.appointments ids, deleteRows db.patient_allergies ids,
       deleteRows db.patient_medications ids, deleteRows db.patients ids⟩ := by
    unfold cleanup_test_data
    rw [hne]
    rfl
  constructor
  · intro t pid hpid
    rw [hfinal]
    cases t with
    | prescriptions => exact deleteRows_not_mem _ ids pid hpid
    | medical_records => exact deleteRows_not_mem _ ids pid hpid
    | appointments => exact deleteRows_not_mem _ ids pid hpid
    | patient_allergies => exact deleteRows_not_mem _ ids pid hpid
    | patient_medications => exact deleteRows_not_mem _ ids pid hpid
    | patients => exact deleteRows_not_mem _ ids pid hpid
  · intro s hs p hp hnp t ht
    have hstates : cleanup_states db ids =
        [db,
         ⟨deleteRows db.prescriptions ids, db.medical_records, db.appointments,
          db.patient_allergies, db.patient_medications, db.patients⟩,
         ⟨deleteRows db.prescriptions ids, deleteRows db.medical_records ids,
          db.appointments, db.patient_allergies, db.patient_medications, db.patients⟩,
         ⟨deleteRows db.prescriptions ids, deleteRows db.medical_records ids,
          deleteRows db.appointments ids, db.patient_allergies,
          db.patient_medications, db.patients⟩,
         ⟨deleteRows db.prescriptions ids, deleteRows db.medical_records ids,
          deleteRows db.appointments ids, deleteRows db.patient_allergies ids,
          db.patient_medications, db.patients⟩,
         ⟨deleteRows db.prescriptions ids, deleteRows db.medical_records ids,
          deleteRows db.appointments ids, deleteRows db.patient_allergies ids,
          deleteRows db.patient_medications ids, db.patients⟩,
         ⟨deleteRows db.prescriptions ids, deleteRows db.medical_records ids,
          deleteRows db.appointments ids, deleteRows db.patient_allergies ids,
          deleteRows db.patient_medications ids, deleteRows db.patients ids⟩] := rfl
    rw [hstates] at hs
    simp only [List.mem_cons, List.not_mem_nil, or_false] at hs
    rcases hs with rfl | rfl | rfl | rfl | rfl | rfl | rfl
    · exact absurd hp hnp
    · exact absurd hp hnp
    · exact absurd hp hnp
    · exact absurd hp hnp
    · exact absurd hp hnp
    · exact absurd hp hnp
    · have hid : p ∈ ids := mem_ids_of_removed db.patients ids p hp hnp
      cases t with
      | prescriptions => exact deleteRows_not_mem _ ids p hid
      | medical_records => exact deleteRows_not_mem _ ids p hid
      | appointments => exact deleteRows_not_mem _ ids p hid
      | patient_allergies => exact deleteRows_not_mem _ ids p hid
      | patient_medications => exact deleteRows_not_mem _ ids p hid
      | patients => exact absurd rfl ht

/-- Witness for C2 at a concrete two-patient database: cleaning up the
single identifier PAT_1 leaves no PAT_1 row in the patients table. -/
theorem C2_cleanup_test_data_integrity_witness :
    ((["PAT_1"] : List String) ≠ [])
    ∧ (∀ pid ∈ (["PAT_1"] : List String),
        pid ∉ getTable (cleanup_test_data
          ⟨["PAT_1"], ["PAT_1"], [], [], [], ["PAT_1", "PAT_2"]⟩ ["PAT_1"])
          HcTable.patients) :=
  ⟨by decide,
    (C2_cleanup_test_data_integrity ⟨["PAT_1"], ["PAT_1"], [], [], [], ["PAT_1", "PAT_2"]⟩
      ["PAT_1"] (by decide)).1 HcTable.patients⟩

/-! ## Failure routing in DatabaseHealthcareLibrary
(src/libraries/DatabaseHealthcareLibrary.py lines 102-142, 165-235)

ROBOT_AVAILABLE decides whether self.builtin is a BuiltIn instance or
None; hasBuiltin embeds that.  A failure is reported either through the
runner (self.builtin.fail) or by raising one of the
HealthcareDatabaseError subclasses; an operation performs its underlying
driver action at most once, there is no retry. -/

/-- The domain-specific HealthcareDatabaseError subclasses defined at the
top of the module. -/
inductive DomainError where
  | databaseConnectionError
  | validationError
  | securityError
  | testDataError
deriving DecidableEq, Repr

/-- How a failure leaves an operation: through the test runner
(self.builtin.fail) when a runner context is present, as a raised
domain-specific exception otherwise, or as a raw Python exception
escaping the except clauses. -/
inductive FailureReport where
  | runnerFail (msg : String)
  | raised (e : DomainError) (msg : String)
  | uncaught (excName : String)
deriving DecidableEq, Repr

inductive OpResult (α : Type) where
  | ok (a : α)
  | failed (r : FailureReport)
deriving DecidableEq, Repr

/-- DatabaseHealthcareLibrary._validate_connection: look the alias up in
the connections mapping, reporting a missing alias through the runner
when present and as DatabaseConnectionError otherwise. -/
def validate_connection (hasBuiltin : Bool) (connections : List String)
    (aliasName : String) : OpResult Unit :=
  if aliasName ∈ connections then .ok ()
  else if hasBuiltin then
    .failed (.runnerFail ("Database connection " ++ aliasName ++ " not found"))
  else
    .failed (.raised .databaseConnectionError
      ("Database connection " ++ aliasName ++ " not found"))

/-- DatabaseHealthcareLibrary._handle_query_error. -/
def handle_query_error (hasBuiltin : Bool) (errorType msg : String) : FailureReport :=
  if hasBuiltin then .runnerFail (errorType ++ ": " ++ msg)
  else .raised .validationError (errorType ++ ": " ++ msg)

/-- The possible outcomes of the body of connect_to_healthcare_database:
a successful driver connection, a driver exception (psycopg2, pymysql or
sqlite3 error), or a configuration error (ValueError for an unsupported
db_type, KeyError for a missing config key). -/
inductive ConnectAttempt where
  | success
  | dbDriverError (msg : String)
  | configError (msg : String)
deriving DecidableEq, Repr

/-- connect_to_healthcare_database failure routing: both except clauses
report through the runner when one is present and raise
DatabaseConnectionError otherwise. -/
def connect_to_healthcare_database (hasBuiltin : Bool) (attempt : ConnectAttempt) :
    OpResult Unit :=
  match attempt with
  | .success => .ok ()
  | .dbDriverError m =>
    if hasBuiltin then .failed (.runnerFail ("Database connection failed: " ++ m))
    else .failed (.raised .databaseConnectionError ("Database connection failed: " ++ m))
  | .configError m =>
    if hasBuiltin then .failed (.runnerFail ("Configuration error: " ++ m))
    else .failed (.raised .databaseConnectionError ("Configuration error: " ++ m))

/-- The outcome of the single cursor.execute / fetch that
execute_healthcare_query performs. -/
inductive DriverOutcome where
  | rows (rs : List Dict)
  | dbError (msg : String)
  | typeError (msg : String)
deriving DecidableEq, Repr

/-- execute_healthcare_query.  catchAll records whether the driver except
tuple degrades to bare Exception, which happens exactly when psycopg2 or
pymysql is not importable.  With no runner context self.builtin is None,
so the audit-log call self.builtin.log raises AttributeError before the
query runs; under catchAll the except clause converts it through
_handle_query_error, otherwise it escapes raw.  The second component
counts how many times the driver executes the query: never more than
once, there is no retry. -/
def execute_healthcare_query (hasBuiltin catchAll : Bool) (connections : List String)
    (aliasName : String) (driver : DriverOutcome) : OpResult (List Dict) × Nat :=
  match validate_connection hasBuiltin connections aliasName with
  | .failed r => (.failed r, 0)
  | .ok _ =>
    if hasBuiltin then
      match driver with
      | .rows rs => (.ok rs, 1)
      | .dbError m => (.failed (handle_query_error true "Query execution failed" m), 1)
      | .typeError m => (.failed (handle_query_error true "Invalid query parameters" m), 1)
    else
      if catchAll then
        (.failed (handle_query_error false "Query execution failed"
          "AttributeError from self.builtin.log"), 0)
      else
        (.failed (.uncaught "AttributeError"), 0)

/-- Claim C8: a missing alias, a failed connection attempt and a failed
query are each reported through exactly one path: the runner signal when
a runner context is present, a domain-specific HealthcareDatabaseError
subclass when none is (DatabaseConnectionError for alias lookups and
connections, ValidationError for query execution); and the driver action
is performed at most once, so there is no retry. -/
theorem C8_single_failure_path (hasBuiltin catchAll : Bool) (connections : List String)
    (aliasName : String) (driver : DriverOutcome) (attempt : ConnectAttempt) :
    (aliasName ∉ connections → hasBuiltin = false → ∃ m,
      validate_connection hasBuiltin connections aliasName =
        .failed (.raised .databaseConnectionError m))
    ∧ (aliasName ∉ connections → hasBuiltin = true → ∃ m,
      validate_connection hasBuiltin connections aliasName = .failed (.runnerFail m))
    ∧ (attempt ≠ .success → hasBuiltin = false → ∃ m,
      connect_to_healthcare_database hasBuiltin attempt =
        .failed (.raised .databaseConnectionError m))
    ∧ (attempt ≠ .success → hasBuiltin = true → ∃ m,
      connect_to_healthcare_database hasBuiltin attempt = .failed (.runnerFail m))
    ∧ (aliasName ∈ connections → hasBuiltin = true → (∀ rs, driver ≠ .rows rs) → ∃ m,
      (execute_healthcare_query hasBuiltin catchAll connections aliasName driver).1 =
        .failed (.runnerFail m))
    ∧ (aliasName ∈ connections → hasBuiltin = false → catchAll = true → ∃ m,
      (execute_healthcare_query hasBuiltin catchAll connections aliasName driver).1 =
        .failed (.raised .validationError m))
    ∧ (execute_healthcare_query hasBuiltin catchAll connections aliasName driver).2 ≤ 1 := by
  refine ⟨?_, ?_, ?_, ?_, ?_, ?_, ?_⟩
  · intro hmem hb
    subst hb
    refine ⟨"Database connection " ++ aliasName ++ " not found", ?_⟩
    unfold validate_connection
    rw [if_neg hmem]
    rfl
  · intro hmem hb
    subst hb
    refine ⟨"Database connection " ++ aliasName ++ " not found", ?_⟩
    unfold validate_connection
    rw [if_neg hmem]
    rfl
  · intro hne hb
    subst hb
    cases attempt with
    | success => exact absurd rfl hne
    | dbDriverError m => exact ⟨"Database connection failed: " ++ m, rfl⟩
    | configError m => exact ⟨"Configuration error: " ++ m, rfl⟩
  · intro hne hb
    subst hb
    cases attempt with
    | success => exact absurd rfl hne
    | dbDriverError m => exact ⟨"Database connection failed: " ++ m, rfl⟩
    | configError m => exact ⟨"Configuration error: " ++ m, rfl⟩
  · intro hmem hb hnr
    subst hb
    have hval : validate_connection true connections aliasName = .ok () := by
      unfold validate_connection
      rw [if_pos hmem]
    unfold execute_healthcare_query
    rw [hval]
    cases driver with
    | rows rs => exact absurd rfl (hnr rs)
    | dbError m =>
      exact ⟨"Query execution failed" ++ ": " ++ m, by simp [handle_query_error]⟩
    | typeError m =>
      exact ⟨"Invalid query parameters" ++ ": " ++ m, by simp [handle_query_error]⟩
  · intro hmem hb hc
    subst hb
    subst hc
    have hval : validate_connection false connections aliasName = .ok () := by
      unfold validate_connection
      rw [if_pos hmem]
    unfold execute_healthcare_query
    rw [hval]
    exact ⟨"Query execution failed" ++ ": " ++ "AttributeError from self.builtin.log",
      by simp [handle_query_error]⟩
  · unfold execute_healthcare_query
    cases hv : validate_connection hasBuiltin connections aliasName with
    | failed r => simp
    | ok u =>
      cases hasBuiltin with
      | true => cases driver <;> simp
      | false => cases catchAll <;> simp

/-- Witness for C8: with no runner context, looking up a missing alias
raises DatabaseConnectionError. -/
theorem C8_single_failure_path_witness :
    (("missing" : String) ∉ (["default"] : List String) ∧ (false : Bool) = false)
    ∧ (∃ m, validate_connection false ["default"] "missing" =
        .failed (.raised .databaseConnectionError m)) :=
  ⟨⟨by decide, rfl⟩,
    (C8_single_failure_path false true ["default"] "missing"
      (DriverOutcome.rows []) ConnectAttempt.success).1 (by decide) rfl⟩

/-! ## SecurityHelper.sanitize_input (src/utils/helpers.py lines 292-299)

    sanitized = re.sub(r'<[^>]*>', '', input_str)
    sanitized = re.sub(r'\b(union|select|insert|delete|update|drop|create|alter)\b',
                       '', sanitized, flags=re.IGNORECASE)
    sanitized = re.sub(r'(--|#|/\*|\*/)', '', sanitized)
    return sanitized.strip()

Each re.sub is a single left-to-right pass removing non-overlapping
matches; the passes are embedded as recursive scans over the character
list, one function per pass. -/

/-- One tag match of the first pass: the pattern matches from a < up to
the first following >, which [^>]* cannot cross; this drops everything
through that first >. -/
def dropThroughGt : List Char → List Char
  | [] => []
  | c :: rest => if c = '>' then rest else dropThroughGt rest

theorem dropThroughGt_length_le : ∀ l : List Char, (dropThroughGt l).length ≤ l.length := by
  intro l
  induction l with
  | nil => simp [dropThroughGt]
  | cons c rest ih =>
    simp only [dropThroughGt]
    split
    · simp
    · exact Nat.le_succ_of_le ih

theorem dropThroughGt_sublist : ∀ l : List Char, (dropThroughGt l).Sublist l := by
  intro l
  induction l with
  | nil => simp [dropThroughGt]
  | cons c rest ih =>
    simp only [dropThroughGt]
    split
    · exact List.sublist_cons_self c rest
    · exact ih.trans (List.sublist_cons_self c rest)

/-- The first pass: at each position the scan matches a tag if and only
if the character is < and some > follows (the regex engine fails
otherwise and keeps the character). -/
def removeTags (l : List Char) : List Char :=
  match l with
  | [] => []
  | c :: rest =>
    if c = '<' ∧ '>' ∈ rest then removeTags (dropThroughGt rest)
    else c :: removeTags rest
termination_by l.length
decreasing_by
  · exact Nat.lt_succ_of_le (dropThroughGt_length_le rest)
  · simp

theorem removeTags_sublist : ∀ l : List Char, (removeTags l).Sublist l := by
  intro l
  induction l using removeTags.induct with
  | case1 => simp [removeTags]
  | case2 c rest h ih =>
    rw [removeTags, if_pos h]
    exact (ih.trans (dropThroughGt_sublist rest)).trans (List.sublist_cons_self c rest)
  | case3 c rest h ih =>
    rw [removeTags, if_neg h]
    exact ih.cons₂ c

/-- Python regex word characters, over the ASCII alphabet the repository
uses. -/
def isWordChar (c : Char) : Bool := c.isAlphanum || c = '_'

/-- The denylist of the second pass, in the alternation order of the
source regex. -/
def sqlKeywords : List (List Char) :=
  ["union", "select", "insert", "delete", "update", "drop", "create", "alter"].map
    String.data

/-- Case-insensitive match of one keyword at the head of the input,
returning the remainder on success. -/
def matchCI : List Char → List Char → Option (List Char)
  | [], s => some s
  | _ :: _, [] => none
  | k :: ks, c :: cs => if c.toLower = k then matchCI ks cs else none

/-- The trailing word boundary of the pattern: the keyword ends at end of
input or before a non-word character. -/
def boundaryAfterOk : List Char → Bool
  | [] => true
  | c :: _ => !(isWordChar c)

/-- The regex alternation: try each keyword in order at this position. -/
def tryKeywords : List (List Char) → List Char → Option (List Char)
  | [], _ => none
  | kw :: kws, s =>
    match matchCI kw s with
    | some rest => if boundaryAfterOk rest then some rest else tryKeywords kws s
    | none => tryKeywords kws s

theorem matchCI_length : ∀ (k s rest : List Char), matchCI k s = some rest →
    rest.length + k.length = s.length := by
  intro k
  induction k with
  | nil =>
    intro s rest h
    simp [matchCI] at h
    simp [h]
  | cons kc ks ih =>
    intro s rest h
    cases s with
    | nil => simp [matchCI] at h
    | cons c cs =>
      simp only [matchCI] at h
      split at h
      · have := ih cs rest h
        simp only [List.length_cons]
        omega
      · exact absurd h (by simp)

theorem matchCI_sublist : ∀ (k s rest : List Char), matchCI k s = some rest →
    rest.Sublist s := by
  intro k
  induction k with
  | nil =>
    intro s rest h
    simp [matchCI] at h
    simp [h]
  | cons kc ks ih =>
    intro s rest h
    cases s with
    | nil => simp [matchCI] at h
    | cons c cs =>
      simp only [matchCI] at h
      split at h
      · exact (ih cs rest h).trans (List.sublist_cons_self c cs)
      · exact absurd h (by simp)

theorem tryKeywords_lt : ∀ (kws : List (List Char)) (s rest : List Char),
    (∀ kw ∈ kws, kw ≠ []) → tryKeywords kws s = some rest → rest.length < s.length := by
  intro kws
  induction kws with
  | nil =>
    intro s rest hne h
    simp [tryKeywords] at h
  | cons kw kws ih =>
    intro s rest hne h
    simp only [tryKeywords] at h
    cases hm : matchCI kw s with
    | some rest0 =>
      rw [hm] at h
      have h2 : (if boundaryAfterOk rest0 = true then some rest0
          else tryKeywords kws s) = some rest := h
      by_cases hb : boundaryAfterOk rest0 = true
      · rw [if_pos hb] at h2
        injection h2 with h2
        subst h2
        have hlen := matchCI_length kw s rest0 hm
        have hkw : kw ≠ [] := hne kw (List.mem_cons_self kw kws)
        have : 0 < kw.length := List.length_pos.mpr hkw
        omega
      · rw [if_neg hb] at h2
        exact ih s rest (fun k hk => hne k (List.mem_cons_of_mem kw hk)) h2
    | none =>
      rw [hm] at h
      exact ih s rest (fun k hk => hne k (List.mem_cons_of_mem kw hk)) h

theorem tryKeywords_sublist : ∀ (kws : List (List Char)) (s rest : List Char),
    tryKeywords kws s = some rest → rest.Sublist s := by
  intro kws
  induction kws with
  | nil =>
    intro s rest h
    simp [tryKeywords] at h
  | cons kw kws ih =>
    intro s rest h
    simp only [tryKeywords] at h
    cases hm : matchCI kw s with
    | some rest0 =>
      rw [hm] at h
      have h2 : (if boundaryAfterOk rest0 = true then some rest0
          else tryKeywords kws s) = some rest := h
      by_cases hb : boundaryAfterOk rest0 = true
      · rw [if_pos hb] at h2
        injection h2 with h2
        subst h2
        exact matchCI_sublist kw s rest0 hm
      · rw [if_neg hb] at h2
        exact ih s rest h2
    | none =>
      rw [hm] at h
      exact ih s rest h

theorem sqlKeywords_ne_nil : ∀ kw ∈ sqlKeywords, kw ≠ [] := by decide

/-- The second pass.  prevWord tracks whether the previous character of
the original string is a word character: a keyword starts with a word
character, so the leading word boundary holds exactly when the previous
character is not one (at a position whose character is not a word
character no keyword can match anyway, so skipping the attempt while
prevWord is true computes the same scan).  After a match the scan
resumes right after the keyword, whose last character is a word
character, so prevWord becomes true. -/
def removeKeywords (s : List Char) (prevWord : Bool) : List Char :=
  match s with
  | [] => []
  | c :: rest =>
    if prevWord then c :: removeKeywords rest (isWordChar c)
    else
      match htry : tryKeywords sqlKeywords (c :: rest) with
      | some rem => removeKeywords rem true
      | none => c :: removeKeywords rest (isWordChar c)
termination_by s.length
decreasing_by
  · simp
  · exact tryKeywords_lt sqlKeywords (c :: rest) rem sqlKeywords_ne_nil htry
  · simp

theorem removeKeywords_sublist : ∀ (s : List Char) (prevWord : Bool),
    (removeKeywords s prevWord).Sublist s := by
  intro s prevWord
  induction s, prevWord using removeKeywords.induct with
  | case1 prevWord => simp [removeKeywords]
  | case2 c tail ih =>
    rw [removeKeywords, if_pos rfl]
    exact ih.cons₂ c
  | case3 prevWord c tail hp rem htry ih =>
    rw [removeKeywords, if_neg hp]
    split
    · rename_i rem2 htry2
      rw [htry] at htry2
      injection htry2 with h3
      subst h3
      exact ih.trans (tryKeywords_sublist sqlKeywords (c :: tail) rem htry)
    · rename_i htry2
      rw [htry] at htry2
      exact absurd htry2 (by simp)
  | case4 prevWord c tail hp htry ih =>
    rw [removeKeywords, if_neg hp]
    split
    · rename_i rem2 htry2
      rw [htry] at htry2
      exact absurd htry2 (by simp)
    · exact ih.cons₂ c

/-- The third pass, the comment-marker alternation (--|#|/*|*/): at each
position the first matching alternative is removed and the scan resumes
after it, otherwise the character is kept. -/
def removeMarkers : List Char → List Char
  | '-' :: '-' :: rest => removeMarkers rest
  | '#' :: rest => removeMarkers rest
  | '/' :: '*' :: rest => removeMarkers rest
  | '*' :: '/' :: rest => removeMarkers rest
  | c :: rest => c :: removeMarkers rest
  | [] => []

theorem removeMarkers_sublist : ∀ l : List Char, (removeMarkers l).Sublist l := by
  intro l
  induction l using removeMarkers.induct with
  | case1 rest ih =>
    exact (ih.trans (List.sublist_cons_self '-' rest)).trans
      (List.sublist_cons_self '-' ('-' :: rest))
  | case2 rest ih => exact ih.trans (List.sublist_cons_self '#' rest)
  | case3 rest ih =>
    exact (ih.trans (List.sublist_cons_self '*' rest)).trans
      (List.sublist_cons_self '/' ('*' :: rest))
  | case4 rest ih =>
    exact (ih.trans (List.sublist_cons_self '/' rest)).trans
      (List.sublist_cons_self '*' ('/' :: rest))
  | case5 c rest h1 h2 h3 h4 ih =>
    rw [removeMarkers.eq_def]
    split
    · rename_i rest1 heq
      injection heq with hc hrest
      exact (h1 rest1 hc hrest).elim
    · rename_i rest1 heq
      injection heq with hc hrest
      exact (h2 hc).elim
    · rename_i rest1 heq
      injection heq with hc hrest
      exact (h3 rest1 hc hrest).elim
    · rename_i rest1 heq
      injection heq with hc hrest
      exact (h4 rest1 hc hrest).elim
    · rename_i c2 rest2 heq
      injection heq with hc hrest
      subst hc
      subst hrest
      exact ih.cons₂ _
    · rename_i heq
      exact absurd heq (by simp)
  | case6 => simp [removeMarkers]

/-- The whitespace class of Python str.strip, over the ASCII characters
the repository handles. -/
def pyIsSpace (c : Char) : Bool := [' ', '\t', '\n', '\r', '\x0b', '\x0c'].contains c

/-- Python str.strip(): drop whitespace from both ends. -/
def pyStrip (l : List Char) : List Char :=
  ((l.dropWhile pyIsSpace).reverse.dropWhile pyIsSpace).reverse

theorem pyStrip_sublist (l : List Char) : (pyStrip l).Sublist l := by
  unfold pyStrip
  have h1 : ((l.dropWhile pyIsSpace).reverse.dropWhile pyIsSpace).Sublist
      (l.dropWhile pyIsSpace).reverse := List.dropWhile_sublist pyIsSpace
  have h2 := h1.reverse
  rw [List.reverse_reverse] at h2
  exact h2.trans (List.dropWhile_sublist pyIsSpace)

/-- SecurityHelper.sanitize_input: the three removal passes in source
order, then strip. -/
def sanitize_input (input_str : String) : String :=
  String.mk (pyStrip (removeMarkers (removeKeywords (removeTags input_str.data) false)))

/-- No < in the list is followed, anywhere later, by a >: the shape of a
string that cannot contain a substring of the form <...>. -/
def noLtBeforeGt : List Char → Prop
  | [] => True
  | c :: rest => (c = '<' → '>' ∉ rest) ∧ noLtBeforeGt rest

theorem removeTags_noLtBeforeGt : ∀ l : List Char, noLtBeforeGt (removeTags l) := by
  intro l
  induction l using removeTags.induct with
  | case1 => simp [removeTags, noLtBeforeGt]
  | case2 c rest h ih =>
    rw [removeTags, if_pos h]
    exact ih
  | case3 c rest h ih =>
    rw [removeTags, if_neg h]
    refine ⟨?_, ih⟩
    intro hc hmem
    exact h ⟨hc, (removeTags_sublist rest).subset hmem⟩

theorem noLtBeforeGt_of_sublist : ∀ {l1 l2 : List Char}, l1.Sublist l2 →
    noLtBeforeGt l2 → noLtBeforeGt l1 := by
  intro l1 l2 h
  induction h with
  | slnil => exact fun _ => trivial
  | cons a h ih => exact fun hp => ih hp.2
  | cons₂ a h ih =>
    exact fun hp => ⟨fun hc hm => hp.1 hc (h.subset hm), ih hp.2⟩

theorem noLtBeforeGt_no_tag : ∀ (pre l : List Char), noLtBeforeGt l →
    ∀ mid post : List Char, l ≠ pre ++ '<' :: (mid ++ '>' :: post) := by
  intro pre
  induction pre with
  | nil =>
    intro l hl mid post heq
    exact (heq ▸ hl).1 rfl (List.mem_append_right mid (List.mem_cons_self '>' post))
  | cons a pre ih =>
    intro l hl mid post heq
    cases l with
    | nil => exact absurd heq (by simp)
    | cons c rest =>
      injection heq with h1 h2
      exact ih rest hl.2 mid post h2

theorem dropWhile_head_false (p : Char → Bool) : ∀ (l : List Char) (c : Char)
    (t : List Char), l.dropWhile p = c :: t → p c = false := by
  intro l
  induction l with
  | nil =>
    intro c t h
    simp [List.dropWhile] at h
  | cons a as ih =>
    intro c t h
    by_cases hp : p a
    · rw [List.dropWhile_cons, if_pos hp] at h
      exact ih c t h
    · rw [List.dropWhile_cons, if_neg hp] at h
      injection h with h1 h2
      subst h1
      simpa using hp

theorem pyStrip_head_not_space (l : List Char) (c : Char) (t : List Char)
    (h : pyStrip l = c :: t) : pyIsSpace c = false := by
  obtain ⟨u, hu⟩ := List.dropWhile_suffix (l := (l.dropWhile pyIsSpace).reverse) pyIsSpace
  have h2 := congrArg List.reverse hu
  rw [List.reverse_append, List.reverse_reverse] at h2
  rw [pyStrip] at h
  rw [h] at h2
  have h3 : l.dropWhile pyIsSpace = c :: (t ++ u.reverse) := by
    rw [← h2]
    simp
  exact dropWhile_head_false pyIsSpace l c (t ++ u.reverse) h3

theorem pyStrip_last_not_space (l : List Char) (c : Char) (t : List Char)
    (h : pyStrip l = t ++ [c]) : pyIsSpace c = false := by
  rw [pyStrip] at h
  have h2 := congrArg List.reverse h
  rw [List.reverse_reverse, List.reverse_append] at h2
  exact dropWhile_head_false pyIsSpace _ c t.reverse (by simpa using h2)

/-- Counterexample to claim C7 as stated: each removal is a single
left-to-right pass, and deleting a marker can join fragments into a new
keyword or marker.  Removing the # from sel#ect yields the whole-word
denylisted keyword select, and removing the # from -#- joins the two
dashes into the comment marker --, both surviving in the output. -/
theorem C7_counterexample_single_pass :
    sanitize_input "sel#ect" = "select" ∧ sanitize_input "-#-" = "--" := by
  constructor
  · simp [sanitize_input, removeTags, dropThroughGt, removeKeywords, tryKeywords,
      matchCI, boundaryAfterOk, isWordChar, sqlKeywords, removeMarkers, pyStrip,
      pyIsSpace, List.dropWhile]
  · simp [sanitize_input, removeTags, dropThroughGt, removeKeywords, tryKeywords,
      matchCI, boundaryAfterOk, isWordChar, sqlKeywords, removeMarkers, pyStrip,
      pyIsSpace, List.dropWhile]

/-- Claim C7, amended: for every input string the output of
sanitize_input contains no HTML tag substring (no substring of the form
<...>) and has no leading or trailing whitespace; the keyword and
comment-marker clauses of the claim are dropped, because each of those
removals is a single pass whose deletions can concatenate the remaining
fragments into new whole-word keywords or new markers. -/
theorem C7_sanitize_input_amended (input_str : String) :
    (∀ pre mid post : List Char,
      (sanitize_input input_str).data ≠ pre ++ '<' :: (mid ++ '>' :: post))
    ∧ (∀ c t, (sanitize_input input_str).data = c :: t → pyIsSpace c = false)
    ∧ (∀ c t, (sanitize_input input_str).data = t ++ [c] → pyIsSpace c = false) := by
  have hdata : (sanitize_input input_str).data =
      pyStrip (removeMarkers (removeKeywords (removeTags input_str.data) false)) := rfl
  refine ⟨?_, ?_, ?_⟩
  · have h1 : noLtBeforeGt (removeTags input_str.data) := removeTags_noLtBeforeGt _
    have hsub : (pyStrip (removeMarkers (removeKeywords (removeTags input_str.data)
        false))).Sublist (removeTags input_str.data) :=
      ((pyStrip_sublist _).trans (removeMarkers_sublist _)).trans
        (removeKeywords_sublist _ false)
    have h2 := noLtBeforeGt_of_sublist hsub h1
    rw [hdata]
    intro pre mid post
    exact noLtBeforeGt_no_tag pre _ h2 mid post
  · intro c t h
    rw [hdata] at h
    exact pyStrip_head_not_space _ c t h
  · intro c t h
    rw [hdata] at h
    exact pyStrip_last_not_space _ c t h

/-- Witness for the amended C7 at a concrete input: the sanitized form
of sel#ect starts with the character s, and the theorem concludes that
this leading character is not whitespace. -/
theorem C7_sanitize_input_amended_witness :
    ((sanitize_input "sel#ect").data = 's' :: "elect".data)
    ∧ pyIsSpace 's' = false :=
  ⟨by simp [sanitize_input, removeTags, dropThroughGt, removeKeywords, tryKeywords,
      matchCI, boundaryAfterOk, isWordChar, sqlKeywords, removeMarkers, pyStrip,
      pyIsSpace, List.dropWhile],
    (C7_sanitize_input_amended "sel#ect").2.1 's' "elect".data
      (by simp [sanitize_input, removeTags, dropThroughGt, removeKeywords, tryKeywords,
        matchCI, boundaryAfterOk, isWordChar, sqlKeywords, removeMarkers, pyStrip,
        pyIsSpace, List.dropWhile])⟩
